import Mathlib

/-!
Verification of the haystack excerpt: the `DocumentCleaner` preprocessing
component (modelled from the specification, since only its test suite is part
of the excerpt), the `PydanticDocumentWriter` component and the `ChatMessage`
dataclass (both embedded from their Python sources).

Python strings are embedded as `List Char` at the algorithmic level (with
`String` wrappers at the component interface), and every recursion is
structural so that all definitions evaluate inside the kernel.
-/

namespace Haystack

/-! ## Low-level string operations (Python `str` semantics on `List Char`) -/

/-- Replace occurrences of `pat` (non-overlapping, leftmost-first) by `repl`,
with explicit fuel; `fuel ≥ l.length` makes it total on `l`.
Mirrors Python `str.replace` for a non-empty pattern. -/
def replaceAux (pat repl : List Char) : Nat → List Char → List Char
  | _, [] => []
  | 0, l => l
  | Nat.succ fuel, c :: rest =>
    if pat.isPrefixOf (c :: rest) then
      repl ++ replaceAux pat repl fuel ((c :: rest).drop pat.length)
    else
      c :: replaceAux pat repl fuel rest

/-- Python `l.replace(pat, repl)` for a non-empty pattern (the excerpt never
replaces an empty pattern; for an empty pattern we return `l` unchanged). -/
def replaceL (l pat repl : List Char) : List Char :=
  if pat.isEmpty then l else replaceAux pat repl l.length l

/-- Python `s.split(sep)` for a single-character separator: auxiliary
accumulator version. -/
def splitOnCharAux (sep : Char) : List Char → List Char → List (List Char)
  | [], acc => [acc.reverse]
  | c :: rest, acc =>
    if c = sep then acc.reverse :: splitOnCharAux sep rest []
    else splitOnCharAux sep rest (c :: acc)

/-- Python `s.split(sep)` for a single-character separator. -/
def splitOnChar (sep : Char) (l : List Char) : List (List Char) :=
  splitOnCharAux sep l []

/-- Python `sep.join(parts)`. -/
def intercalateL (sep : List Char) : List (List Char) → List Char
  | [] => []
  | [x] => x
  | x :: y :: rest => x ++ sep ++ intercalateL sep (y :: rest)

/-- Python `s.strip()`: drop whitespace from both ends. -/
def stripL (l : List Char) : List Char :=
  ((l.dropWhile Char.isWhitespace).reverse.dropWhile Char.isWhitespace).reverse

/-- Collapse every maximal run of whitespace characters into a single space
(the specification's description of the extra-whitespace stage). -/
def collapseWs : List Char → List Char
  | [] => []
  | [c] => if c.isWhitespace then [' '] else [c]
  | c :: d :: rest =>
    if c.isWhitespace && d.isWhitespace then collapseWs (d :: rest)
    else (if c.isWhitespace then ' ' else c) :: collapseWs (d :: rest)

/-- Last `n` characters of a list, Python `l[-n:]` (for `n > 0`). -/
def takeRightL (n : Nat) (l : List Char) : List Char :=
  l.drop (l.length - n)

/-! ## Cleaning stages

Modelled from the spec: the `DocumentCleaner` implementation itself is not in
the excerpt (only its test suite is), so every stage below is reconstructed
from the specification's description of the normalization stages. -/

/-- Modelled from the spec: the empty-line stage — "split on line breaks, drop
lines that are empty after trimming, rejoin with single space". -/
def removeEmptyLinesL (l : List Char) : List Char :=
  intercalateL [' '] ((splitOnChar '\n' l).filter (fun line => !(stripL line).isEmpty))

/-- Modelled from the spec: the whitespace stage — "collapse runs of
whitespace into a single space and trim ends". -/
def removeExtraWhitespacesL (l : List Char) : List Char :=
  stripL (collapseWs l)

/-- Modelled from the spec: the substring stage — "for each configured literal
in list order, remove all occurrences (simple substring deletion, not
regex)". -/
def removeSubstringsL (subs : List (List Char)) (l : List Char) : List Char :=
  subs.foldl (fun t sub => replaceL t sub []) l

/-! ### Repeated-substring (header/footer) removal

Modelled from the spec: the stage scans the form-feed-separated "pages" of the
text for a repeated contiguous span of words (a candidate header near the page
starts, then a candidate footer near the page ends, each capped at 300
characters of context) that is common to every interior page — the first and
last pages may carry truncated artifacts and are not used as references — and
deletes every occurrence of the found span from all pages.  Word granularity:
the page text is split on single spaces after marking line breaks and tabs, so
a span always starts and ends on a word boundary.  The span must be between 3
and 29 words long and must not be pure whitespace; among the candidates the
one with the most words is chosen.  This reproduces the worked example of the
test suite literally. -/

/-- Modelled from the spec: split a page into words, keeping line breaks and
tabs as their own tokens (a space is inserted before each, so splitting on
single spaces preserves the original whitespace through `joinTokens`). -/
def tokenize (l : List Char) : List (List Char) :=
  splitOnChar ' ' (replaceL (replaceL l ['\n'] [' ', '\n']) ['\t'] [' ', '\t'])

/-- Modelled from the spec: inverse of `tokenize` — join words with single
spaces and drop the spaces that were inserted before line breaks and tabs. -/
def joinTokens (ws : List (List Char)) : List Char :=
  replaceL (replaceL (intercalateL [' '] ws) [' ', '\n'] ['\n']) [' ', '\t'] ['\t']

/-- Length of the longest common prefix of two word sequences. -/
def lcpW : List (List Char) → List (List Char) → Nat
  | x :: xs, y :: ys => if x = y then lcpW xs ys + 1 else 0
  | _, _ => 0

/-- All suffixes of a list, longest first. -/
def tailsOf : List α → List (List α)
  | [] => [[]]
  | x :: xs => (x :: xs) :: tailsOf xs

/-- Whether `w` occurs as a contiguous run inside `ws`. -/
def isSubrun (w ws : List (List Char)) : Bool :=
  (List.range (ws.length + 1)).any (fun k => (ws.drop k).take w.length == w)

/-- Fold the suffixes of the second sequence into the running best candidate
`(length, start index)`: against suffix `sj`, the suffix `si` of the first
sequence (starting at word `i`) proposes its first `min (lcpW si sj) hi`
words, accepted if that is at least `lo` words, beats the current best and
occurs in every remaining reference sequence. -/
def scanSuffix (si : List (List Char)) (i : Nat)
    (restTok : List (List (List Char))) (lo hi : Nat)
    (w2sufs : List (List (List Char))) (best : Option (Nat × Nat)) :
    Option (Nat × Nat) :=
  w2sufs.foldl
    (fun b sj =>
      let len := min (lcpW si sj) hi
      let cur := match b with
        | none => 0
        | some p => p.1
      if lo ≤ len ∧ cur < len ∧ restTok.all (fun ws => isSubrun (si.take len) ws) then
        some (len, i)
      else b)
    best

/-- Scan every pair of suffixes of the two word sequences, returning the best
common run as `(length, start index)` into the first sequence. -/
def scanAllSuffixes (restTok : List (List (List Char))) (lo hi : Nat)
    (w2sufs : List (List (List Char))) :
    List (List (List Char)) → Nat → Option (Nat × Nat) → Option (Nat × Nat)
  | [], _, best => best
  | si :: sis, i, none =>
    scanAllSuffixes restTok lo hi w2sufs sis (i + 1)
      (scanSuffix si i restTok lo hi w2sufs none)
  | si :: sis, i, some p =>
    scanAllSuffixes restTok lo hi w2sufs sis (i + 1)
      (scanSuffix si i restTok lo hi w2sufs (some p))

/-- Modelled from the spec: the longest span of words (between `lo` and `hi`
words) common to all the given non-empty sequences; empty if none qualifies or
the found span is pure whitespace. -/
def findLongestCommonSpan (seqs : List (List Char)) (lo hi : Nat) : List Char :=
  let seqs := seqs.filter (fun s => !s.isEmpty)
  match seqs with
  | [] => []
  | [s] =>
    let ws := tokenize s
    let n := min hi ws.length
    if n < lo then []
    else
      let cand := joinTokens (ws.take n)
      if (stripL cand).isEmpty then [] else cand
  | s1 :: s2 :: rest =>
    let w1 := tokenize s1
    let w2 := tokenize s2
    let restTok := rest.map tokenize
    match scanAllSuffixes restTok lo hi (tailsOf w2) (tailsOf w1) 0 none with
    | none => []
    | some (len, i) =>
      let cand := joinTokens ((w1.drop i).take len)
      if (stripL cand).isEmpty then [] else cand

/-- Modelled from the spec: the repeated-substring (header/footer) stage.
The text is split into pages on form feeds; a repeated span is searched first
near the page starts (header) and then near the page ends (footer), each time
among the interior pages only, and every occurrence of a found span is deleted
from every page. -/
def removeRepeatedSubstringsL (l : List Char) : List Char :=
  let pages := splitOnChar '\x0c' l
  let interior := (pages.drop 1).dropLast
  let header := findLongestCommonSpan (interior.map (fun p => p.take 300)) 3 29
  let pages := if header.isEmpty then pages else pages.map (fun p => replaceL p header [])
  let interior2 := (pages.drop 1).dropLast
  let footer := findLongestCommonSpan (interior2.map (fun p => takeRightL 300 p)) 3 29
  let pages := if footer.isEmpty then pages else pages.map (fun p => replaceL p footer [])
  intercalateL ['\x0c'] pages

/-! ## The Document data model

Modelled from the spec: a Document is a record with an optional text
`content`, a `meta` mapping (string keys to values; embedded as an
association list in insertion order, the canonical form of a Python dict) and
an opaque string `id`.  A document's content may also be missing or hold a
non-text payload, which the cleaner must pass through. -/

/-- The dynamically-typed `content` attribute of a Document. -/
inductive DocContent
  | text (s : String)
  | missing
  | nonText (tag : String)
deriving DecidableEq, Repr

/-- Whether the content is text-typed. -/
def DocContent.isText : DocContent → Bool
  | .text _ => true
  | _ => false

/-- Modelled from the spec: the Document record. -/
structure Document where
  id : String
  content : DocContent
  meta : List (String × String)
deriving DecidableEq, Repr

/-! ### The default content-addressed id

Modelled from the spec: the default id is "derived deterministically from the
new content plus metadata such that two documents with identical cleaned
content and metadata collapse to the same id, and any content change yields a
different id", and "two documents with different metadata but same content get
different ids".  We realise this contract with an injective (collision-free)
encoding of the pair (content, meta) into the id string: each component
string is emitted with a unary length prefix, which makes the encoding
prefix-unambiguous. -/

/-- Flatten a meta association list into its keys and values, interleaved. -/
def flattenMeta : List (String × String) → List String
  | [] => []
  | (k, v) :: rest => k :: v :: flattenMeta rest

/-- Unary length-prefixed encoding of a list of strings into characters:
each string `s` becomes `'L' * s.length ++ ":" ++ s`. -/
def encList : List String → List Char
  | [] => []
  | s :: rest => List.replicate s.length 'L' ++ ':' :: (s.data ++ encList rest)

/-- Modelled from the spec: the content-addressed default id of a document,
computed from its text content and its meta mapping. -/
def contentId (content : String) (meta : List (String × String)) : String :=
  ⟨encList (content :: flattenMeta meta)⟩

/-- Modelled from the spec: Document construction computes the default
content-addressed id from the supplied content and meta. -/
def mkCleanedDocument (content : String) (meta : List (String × String)) : Document :=
  { id := contentId content meta, content := .text content, meta := meta }

/-- Modelled from the spec (and the test suite's import list): the default id
generator returns the freshly constructed document's own content-addressed
id. -/
def DEFAULT_ID_GENERATOR : Document → Document → String :=
  fun _old new => new.id

/-- Modelled from the spec: the "keep" id generator returns the original
document's id unchanged. -/
def KEEP_ID : Document → Document → String :=
  fun old _new => old.id

/-! ## The DocumentCleaner component -/

/-- Modelled from the spec: the construction-time configuration of the
cleaner — five stage switches plus the pluggable id generator.  The regex
stage delegates to an external regex engine (Python `re`), which the
component carries as an opaque deletion function `pattern → text → text`. -/
structure DocumentCleaner where
  remove_empty_lines : Bool := true
  remove_extra_whitespaces : Bool := true
  remove_repeated_substrings : Bool := false
  remove_substrings : Option (List String) := none
  remove_regex : Option String := none
  id_generator : Document → Document → String := DEFAULT_ID_GENERATOR
  regexEngine : String → String → String := fun _pat s => s

/-- Modelled from the spec: per-call overrides for the five stage switches;
`none` means the argument was not supplied and the construction-time value
applies. -/
structure Overrides where
  remove_empty_lines : Option Bool := none
  remove_extra_whitespaces : Option Bool := none
  remove_repeated_substrings : Option Bool := none
  remove_substrings : Option (Option (List String)) := none
  remove_regex : Option (Option String) := none

/-- The empty per-call override set (a call `run(documents=...)` with no
further arguments). -/
def noOverrides : Overrides := {}

/-- The configuration effective for one invocation: each supplied per-call
switch overrides the construction-time one, for this invocation only. -/
def effectiveCleaner (c : DocumentCleaner) (ov : Overrides) : DocumentCleaner :=
  { c with
    remove_empty_lines := ov.remove_empty_lines.getD c.remove_empty_lines
    remove_extra_whitespaces := ov.remove_extra_whitespaces.getD c.remove_extra_whitespaces
    remove_repeated_substrings := ov.remove_repeated_substrings.getD c.remove_repeated_substrings
    remove_substrings := ov.remove_substrings.getD c.remove_substrings
    remove_regex := ov.remove_regex.getD c.remove_regex }

/-- Modelled from the spec: the five normalization stages applied to a text
in their fixed order (empty lines, extra whitespace, substrings, regex,
repeated substrings), each a no-op when disabled. -/
def cleanText (c : DocumentCleaner) (s : String) : String :=
  let s := if c.remove_empty_lines then ⟨removeEmptyLinesL s.data⟩ else s
  let s := if c.remove_extra_whitespaces then ⟨removeExtraWhitespacesL s.data⟩ else s
  let s := match c.remove_substrings with
    | some subs => ⟨removeSubstringsL (subs.map String.data) s.data⟩
    | none => s
  let s := match c.remove_regex with
    | some pat => c.regexEngine pat s
    | none => s
  if c.remove_repeated_substrings then ⟨removeRepeatedSubstringsL s.data⟩ else s

/-- The warning-level diagnostic emitted for a document whose content is
missing or not text, naming the document id. -/
def nonTextWarning (d : Document) : String :=
  "DocumentCleaner only cleans text documents but document.content for document ID " ++
    d.id ++ " is not a string. Skipping this document."

/-- Modelled from the spec: per-document processing — a non-text document is
passed through unmodified with a diagnostic (the id generator is not
invoked); a text document is cleaned, rebuilt as a new Document with the
original meta copied verbatim, and given the id computed by the configured
generator from the original and the freshly built document. -/
def processDoc (c : DocumentCleaner) (d : Document) : Document × List String :=
  match d.content with
  | .text s =>
    let newDoc := mkCleanedDocument (cleanText c s) d.meta
    ({ newDoc with id := c.id_generator d newDoc }, [])
  | _ => (d, [nonTextWarning d])

/-- The dynamically-typed `documents` argument of `run`: either a proper list
of Documents or a single bare Document (the invalid input the type check
rejects). -/
inductive RunInput
  | single (d : Document)
  | listOf (ds : List Document)

/-- Modelled from the spec: the error kinds of the component.  The only
validated error is the sequence-type check on the whole input. -/
inductive CleanerError
  | invalidInputKind (msg : String)
deriving DecidableEq, Repr

/-- The successful result of `run`: the cleaned documents plus the
warning-level diagnostics emitted along the way. -/
structure RunOutput where
  documents : List Document
  warnings : List String
deriving DecidableEq, Repr

/-- Modelled from the spec: the `run` method.  It validates that the input is
a sequence before any document is processed, then cleans each document under
the per-call effective configuration.  The second component of the result is
the component state after the call, which `run` never mutates. -/
def DocumentCleaner.run (c : DocumentCleaner) (ov : Overrides) (input : RunInput) :
    Except CleanerError RunOutput × DocumentCleaner :=
  match input with
  | .single _ =>
    (.error (.invalidInputKind "DocumentCleaner expects a List of Documents as input."), c)
  | .listOf ds =>
    let eff := effectiveCleaner c ov
    let results := ds.map (processDoc eff)
    (.ok { documents := results.map Prod.fst, warnings := (results.map Prod.snd).flatten }, c)

/-- The cleaned documents a successful `run` returns (empty on error). -/
def runDocs (c : DocumentCleaner) (ov : Overrides) (ds : List Document) : List Document :=
  match (c.run ov (.listOf ds)).1 with
  | .ok out => out.documents
  | .error _ => []

/-! ## PydanticDocumentWriter
(embedded from `src/haystack/components/writers/pydantic_document_writer.py`) -/

/-- The duplicate policy enumeration of the document store API. -/
inductive DuplicatePolicy
  | NONE
  | SKIP
  | OVERWRITE
  | FAIL
deriving DecidableEq, Repr

/-- The state of the document store held by the writer: the documents written
to it so far. -/
structure DocumentStore where
  stored : List Document
deriving DecidableEq, Repr

/-- A Pydantic model class: `model_validate` over whatever value is passed to
it (a `ValidationError` becomes `.error`) and JSON serialization of the
validated result.  `γ` is the type of the values actually handed to
`model_validate` by the caller. -/
structure PydanticModel (γ : Type) where
  model_validate : γ → Except String γ
  model_dump_json : γ → String

/-- The writer component: a document store, the Pydantic model used for
validation, and the configured duplicate policy.  The source's loop passes
each whole `(instance, metadata)` tuple — not the instance — to
`model_validate`, so the model's validation domain here is the pair type. -/
structure PydanticDocumentWriter (α : Type) where
  document_store : DocumentStore
  model : PydanticModel (α × List (String × String))
  policy : DuplicatePolicy

/-- The error raised by the writer's `run`. -/
inductive WriterError
  | valueError (msg : String)
deriving DecidableEq, Repr

/-- The loop of `PydanticDocumentWriter.run`: `for inst in instances` —
each loop element `inst`, which is the entire `(instance, metadata)` tuple,
is passed to `model_validate` (`ValueError` on the first failure), the
validated value is serialized and a fresh `Document()` is built and printed —
but, faithfully to the source, never appended to the result list, which
stays empty. -/
def writerLoop (model : PydanticModel (α × List (String × String))) :
    List (α × List (String × String)) → Except WriterError (List Document)
  | [] => .ok []
  | inst :: rest =>
    match model.model_validate inst with
    | .error _ => .error (.valueError "One of the instances passed did not pass validation.")
    | .ok v =>
      let _serialized := model.model_dump_json v
      let _doc : Document := { id := contentId "" [], content := .missing, meta := [] }
      writerLoop model rest

/-- `PydanticDocumentWriter.run`, embedded from the source.  The second
component of the result is the document store after the call: `run` never
touches it. -/
def PydanticDocumentWriter.run (w : PydanticDocumentWriter α)
    (instances : List (α × List (String × String))) (policy : Option DuplicatePolicy) :
    Except WriterError (List Document) × DocumentStore :=
  let _policy := policy.getD w.policy
  (writerLoop w.model instances, w.document_store)

/-! ## ChatMessage
(embedded from `src/haystack/dataclasses/chat_message.py`) -/

/-- The chat role enumeration. -/
inductive ChatRole
  | assistant
  | user
  | system
  | function
deriving DecidableEq, Repr

/-- The string value of each role (it is a `str`-valued enum). -/
def ChatRole.value : ChatRole → String
  | .assistant => "assistant"
  | .user => "user"
  | .system => "system"
  | .function => "function"

/-- A primitive dynamically-typed Python value, as far as the excerpt
needs: a string, `None`, or a `ChatRole` member. -/
inductive PyPrim
  | str (s : String)
  | pyNone
  | role (r : ChatRole)
deriving DecidableEq, Repr

/-- A top-level dynamically-typed Python value: a primitive or a dictionary
of primitives. -/
inductive PyTop
  | prim (p : PyPrim)
  | dict (entries : List (String × PyPrim))
deriving DecidableEq, Repr

/-- Python truthiness of the embedded values (empty strings and empty
dictionaries are falsy, `None` is falsy). -/
def PyTop.isTruthy : PyTop → Bool
  | .prim (.str s) => !s.isEmpty
  | .prim .pyNone => false
  | .prim (.role _) => true
  | .dict es => !es.isEmpty

/-- `ChatRole(value)`: the enum constructor-by-value — succeeds on the member
strings and on an existing member, fails (`ValueError`) otherwise. -/
def ChatRole.ofValue : PyTop → Option ChatRole
  | .prim (.str "assistant") => some .assistant
  | .prim (.str "user") => some .user
  | .prim (.str "system") => some .system
  | .prim (.str "function") => some .function
  | .prim (.role r) => some r
  | _ => none

/-- The ChatMessage dataclass.  `from_dict` always stores a `ChatRole` in
`role`, but the dataclass itself (like the Python original) does not enforce
the annotations, so the fields hold dynamic values. -/
structure ChatMessage where
  content : PyTop
  role : PyTop
  name : PyTop
  meta : List (String × PyTop)
deriving DecidableEq, Repr

/-- The errors Python can raise while running `ChatMessage.from_dict`. -/
inductive PyErr
  | valueError (msg : String)
  | keyError (k : String)
  | typeError (msg : String)
deriving DecidableEq, Repr

/-- The dataclass field names of `ChatMessage` (`fields(cls)` in the
source). -/
def chatFieldNames : List String := ["content", "role", "name", "meta"]

/-- First-match lookup in a dictionary embedded as an association list. -/
def dlookup (k : String) : List (String × PyTop) → Option PyTop
  | [] => none
  | (k', v) :: rest => if k' = k then some v else dlookup k rest

/-- `data[k] = v` for a key already present: replace the value in place. -/
def dset : List (String × PyTop) → String → PyTop → List (String × PyTop)
  | [], _, _ => []
  | (k₀, v₀) :: rest, k, v =>
    (if k₀ = k then (k₀, v) else (k₀, v₀)) :: dset rest k v

/-- `data.pop(k)`: the dictionary without key `k`. -/
def dremove : List (String × PyTop) → String → List (String × PyTop)
  | [], _ => []
  | (k₀, v₀) :: rest, k =>
    if k₀ = k then dremove rest k else (k₀, v₀) :: dremove rest k

/-- The entries whose key is not a `ChatMessage` field name, in order (the
flattened metadata keys popped by the loop of `from_dict`). -/
def nonFieldEntries : List (String × PyTop) → List (String × PyTop)
  | [] => []
  | (k₀, v₀) :: rest =>
    if chatFieldNames.contains k₀ then nonFieldEntries rest
    else (k₀, v₀) :: nonFieldEntries rest

/-- The entries whose key is a `ChatMessage` field name, in order (what is
left of `data` after the loop of `from_dict`). -/
def fieldEntries : List (String × PyTop) → List (String × PyTop)
  | [] => []
  | (k₀, v₀) :: rest =>
    if chatFieldNames.contains k₀ then (k₀, v₀) :: fieldEntries rest
    else fieldEntries rest

/-- Lift a dictionary of primitives to a dictionary of top-level values. -/
def liftDict (es : List (String × PyPrim)) : List (String × PyTop) :=
  es.map (fun kv => (kv.1, .prim kv.2))

/-- `{**a, **b}`: keys of `a` in order (values overridden by `b` where
present), then the new keys of `b` in order. -/
def dmerge (a b : List (String × PyTop)) : List (String × PyTop) :=
  a.map (fun kv => (kv.1, (dlookup kv.1 b).getD kv.2)) ++
    b.filter (fun kv => (dlookup kv.1 a).isNone)

/-- The message of the `ValueError` raised when both a truthy `meta` entry and
flattened metadata keys are passed. -/
def bothMetaMsg : String :=
  "You can pass either the 'meta' parameter or flattened metadata keys as keyword arguments, " ++
    "but currently you're passing both. Pass either the 'meta' parameter or flattened metadata keys."

/-- `ChatMessage.from_dict`, embedded from the source: convert `role` through
the `ChatRole` enum, pop `meta`, pop every non-field key into the flattened
metadata, raise `ValueError` when both a truthy `meta` and flattened keys are
present, and finally call the constructor with the remaining entries and the
merged metadata.  The constructor call raises `TypeError` when `content` or
`name` is missing, and unpacking a non-dict `meta` with `**` raises
`TypeError` as well. -/
def ChatMessage.from_dict (data : List (String × PyTop)) : Except PyErr ChatMessage :=
  match dlookup "role" data with
  | none => .error (.keyError "role")
  | some rv =>
    match ChatRole.ofValue rv with
    | none => .error (.valueError "invalid ChatRole value")
    | some r =>
      let data1 := dset data "role" (.prim (.role r))
      let metaV := (dlookup "meta" data1).getD (.dict [])
      let data2 := dremove data1 "meta"
      let flat := nonFieldEntries data2
      let data3 := fieldEntries data2
      if metaV.isTruthy ∧ flat ≠ [] then .error (.valueError bothMetaMsg)
      else
        match metaV with
        | .dict metaEntries =>
          match dlookup "content" data3, dlookup "role" data3, dlookup "name" data3 with
          | some cv, some rv', some nv =>
            .ok { content := cv, role := rv', name := nv, meta := dmerge (liftDict metaEntries) flat }
          | _, _, _ => .error (.typeError "missing required positional arguments")
        | _ => .error (.typeError "argument after ** must be a mapping")

/-! ## Concrete fixtures used by the witnesses -/

/-- A cleaner with the construction-time defaults. -/
def defaultCleaner : DocumentCleaner := {}

/-- A cleaner configured with the "keep" id generator. -/
def keepCleaner : DocumentCleaner := { id_generator := KEEP_ID }

/-- A cleaner configured with a custom id generator, as in the test suite. -/
def customCleaner : DocumentCleaner := { id_generator := fun old _new => old.id ++ "-new" }

/-- Test document 0 of the metadata tests. -/
def exDoc0 : Document := { id := "id0", content := .text "Text. ", meta := [("name", "doc 0")] }

/-- Test document 1 of the metadata tests: same content, different meta. -/
def exDoc1 : Document := { id := "id1", content := .text "Text. ", meta := [("name", "doc 1")] }

/-- A document without text content (Python `Document()`). -/
def exDocNonText : Document := { id := "idN", content := .missing, meta := [] }

/-- The three concatenated pages of the worked repeated-substring example of
the test suite: identical headers "This is a header.  Page  of" and identical
footers on every page, separated by form feeds. -/
def c1Text : String :=
  "First Page\x0cThis is a header.\n        Page  of\n        2\n        4\n        Lorem ipsum dolor sit amet\n        This is a footer number 1\n        This is footer number 2\x0cThis is a header.\n        Page  of\n        3\n        4\n        Sid ut perspiciatis unde\n        This is a footer number 1\n        This is footer number 2\x0cThis is a header.\n        Page  of\n        4\n        4\n        Sed do eiusmod tempor.\n        This is a footer number 1\n        This is footer number 2"

/-- The expected cleaned text of the worked example: the unique page bodies
plus the page-number lines, with the repeated header/footer spans removed. -/
def c1Expected : String :=
  "First Page\x0c 2\n        4\n        Lorem ipsum dolor sit amet\x0c 3\n        4\n        Sid ut perspiciatis unde\x0c 4\n        4\n        Sed do eiusmod tempor."

/-- The cleaner configuration of the repeated-substring worked example:
empty-line and whitespace stages disabled, repeated-substring stage
enabled. -/
def c1Cleaner : DocumentCleaner :=
  { remove_empty_lines := false, remove_extra_whitespaces := false,
    remove_repeated_substrings := true }

/-- The first output of the default cleaner on the metadata test documents. -/
def exOut0 : Document :=
  { id := "LLLLL:Text.LLLL:nameLLLLL:doc 0", content := .text "Text.", meta := [("name", "doc 0")] }

/-- The second output of the default cleaner on the metadata test documents. -/
def exOut1 : Document :=
  { id := "LLLLL:Text.LLLL:nameLLLLL:doc 1", content := .text "Text.", meta := [("name", "doc 1")] }

/-- A concrete writer over natural-number instances whose validation, applied
to the `(instance, metadata)` pairs `run` hands it, rejects exactly the pairs
whose instance is 0. -/
def exWriter : PydanticDocumentWriter Nat :=
  { document_store := { stored := [] },
    model := { model_validate := fun x => if x.1 = 0 then .error "zero" else .ok x,
               model_dump_json := fun _ => "json" },
    policy := .NONE }

/-- A writer mirroring a plain Pydantic model whose instance type is `α`
itself: `model_validate` succeeds exactly on instances of the model, and an
`(instance, metadata)` tuple — which is what `run` passes it — is never an
instance of the model, so validating it always fails. -/
def tupleRejectingWriter : PydanticDocumentWriter Nat :=
  { document_store := { stored := [] },
    model := { model_validate := fun _pair =>
                 .error "Input should be a valid dictionary or instance of the model",
               model_dump_json := fun _ => "json" },
    policy := .NONE }

/-- `model_validate` of the same plain model applied to a bare instance:
every instance of the model validates. -/
def instanceValidate : Nat → Except String Nat := fun n => .ok n

/-- Whether `ChatMessage.from_dict` raises a `ValueError` on this input. -/
def raisesValueError (d : List (String × PyTop)) : Bool :=
  match ChatMessage.from_dict d with
  | .error (.valueError _) => true
  | _ => false

/-- The claimed raising condition: a truthy `meta` entry together with at
least one key that is not a `ChatMessage` field name. -/
def hasBothMetaKinds (d : List (String × PyTop)) : Bool :=
  (match dlookup "meta" d with
    | some v => v.isTruthy
    | none => false) &&
  d.any (fun kv => !chatFieldNames.contains kv.1)

/-- An input dictionary whose `role` value is not a valid `ChatRole`. -/
def c10Bad : List (String × PyTop) := [("role", .prim (.str "bogus"))]

/-- A well-formed input dictionary with one flattened metadata key. -/
def c10Good : List (String × PyTop) :=
  [("role", .prim (.str "user")), ("content", .prim (.str "hi")),
   ("name", .prim .pyNone), ("extra", .prim (.str "x"))]

/-! ## Theorems -/

theorem replicate_colon_boundary {n m : Nat} {t₁ t₂ : List Char}
    (h : List.replicate n 'L' ++ ':' :: t₁ = List.replicate m 'L' ++ ':' :: t₂) :
    n = m ∧ t₁ = t₂ := by
  induction n generalizing m with
  | zero =>
    cases m with
    | zero =>
      simp only [List.replicate_zero, List.nil_append] at h
      exact ⟨rfl, by injection h⟩
    | succ m =>
      simp only [List.replicate_zero, List.nil_append, List.replicate_succ,
        List.cons_append] at h
      injection h with hhead htail
      exact absurd hhead (by decide)
  | succ n ih =>
    cases m with
    | zero =>
      simp only [List.replicate_zero, List.nil_append, List.replicate_succ,
        List.cons_append] at h
      injection h with hhead htail
      exact absurd hhead (by decide)
    | succ m =>
      simp only [List.replicate_succ, List.cons_append] at h
      injection h with hhead htail
      obtain ⟨h1, h2⟩ := ih htail
      exact ⟨by omega, h2⟩

theorem encList_injective : Function.Injective encList := by
  intro a
  induction a with
  | nil =>
    intro b h
    cases b with
    | nil => rfl
    | cons s rest =>
      rw [encList, encList] at h
      exact absurd h.symm (by simp)
  | cons s rest ih =>
    intro b h
    cases b with
    | nil =>
      rw [encList, encList] at h
      exact absurd h (by simp)
    | cons s' rest' =>
      rw [encList, encList] at h
      obtain ⟨hlen, htail⟩ := replicate_colon_boundary h
      have hdlen : s.data.length = s'.data.length := hlen
      have hdata : s.data = s'.data ∧ encList rest = encList rest' :=
        List.append_inj htail hdlen
      have hs : s = s' := by
        cases s
        cases s'
        exact congrArg String.mk hdata.1
      exact hs ▸ congrArg (s :: ·) (ih hdata.2)

theorem flattenMeta_injective : Function.Injective flattenMeta := by
  intro a
  induction a with
  | nil =>
    intro b h
    cases b with
    | nil => rfl
    | cons kv rest =>
      rw [flattenMeta] at h
      obtain ⟨k, v⟩ := kv
      rw [flattenMeta] at h
      exact absurd h (by simp)
  | cons kv rest ih =>
    intro b h
    obtain ⟨k, v⟩ := kv
    cases b with
    | nil =>
      rw [flattenMeta, flattenMeta] at h
      exact absurd h (by simp)
    | cons kv' rest' =>
      obtain ⟨k', v'⟩ := kv'
      rw [flattenMeta, flattenMeta] at h
      simp only [List.cons.injEq] at h
      obtain ⟨h1, h2, h3⟩ := h
      simp [h1, h2, ih h3]

theorem contentId_injective {c₁ c₂ : String} {m₁ m₂ : List (String × String)}
    (h : contentId c₁ m₁ = contentId c₂ m₂) : c₁ = c₂ ∧ m₁ = m₂ := by
  have h' : encList (c₁ :: flattenMeta m₁) = encList (c₂ :: flattenMeta m₂) :=
    congrArg String.data h
  have h2 := encList_injective h'
  simp only [List.cons.injEq] at h2
  exact ⟨h2.1, flattenMeta_injective h2.2⟩

theorem effectiveCleaner_id_generator (c : DocumentCleaner) (ov : Overrides) :
    (effectiveCleaner c ov).id_generator = c.id_generator := rfl

/-- C2: for every input document with text content, the cleaned output
document's meta mapping equals the input document's meta exactly; the output
is a freshly constructed Document value (in this pure embedding `run` returns
new values and cannot mutate its argument, so the caller's document is
unmodified). -/
theorem run_copies_meta (c : DocumentCleaner) (ov : Overrides) (d : Document) (s : String)
    (h : d.content = .text s) :
    (runDocs c ov [d]).map Document.meta = [d.meta] := by
  simp [runDocs, DocumentCleaner.run, processDoc, h, mkCleanedDocument]

theorem run_copies_meta_witness :
    exDoc0.content = .text "Text. " ∧
      (runDocs defaultCleaner noOverrides [exDoc0]).map Document.meta = [exDoc0.meta] :=
  ⟨rfl, run_copies_meta defaultCleaner noOverrides exDoc0 "Text. " rfl⟩

/-- C3: under the default id generator, for two input documents cleaned in
one run: identical cleaned content and identical meta give identical ids;
different cleaned contents give different ids; identical cleaned contents
with different metas give different ids. -/
theorem default_id_content_addressed (c : DocumentCleaner) (ov : Overrides)
    (hgen : c.id_generator = DEFAULT_ID_GENERATOR)
    (d₁ d₂ : Document) (s₁ s₂ : String)
    (h₁ : d₁.content = .text s₁) (h₂ : d₂.content = .text s₂)
    (o₁ o₂ : Document) (hout : runDocs c ov [d₁, d₂] = [o₁, o₂]) :
    (o₁.content = o₂.content ∧ d₁.meta = d₂.meta → o₁.id = o₂.id) ∧
    (o₁.content ≠ o₂.content → o₁.id ≠ o₂.id) ∧
    (o₁.content = o₂.content → d₁.meta ≠ d₂.meta → o₁.id ≠ o₂.id) := by
  have e : runDocs c ov [d₁, d₂] =
      [{ id := contentId (cleanText (effectiveCleaner c ov) s₁) d₁.meta,
         content := .text (cleanText (effectiveCleaner c ov) s₁), meta := d₁.meta },
       { id := contentId (cleanText (effectiveCleaner c ov) s₂) d₂.meta,
         content := .text (cleanText (effectiveCleaner c ov) s₂), meta := d₂.meta }] := by
    simp [runDocs, DocumentCleaner.run, processDoc, h₁, h₂, effectiveCleaner_id_generator,
      hgen, mkCleanedDocument, DEFAULT_ID_GENERATOR]
  rw [e] at hout
  simp only [List.cons.injEq, and_true] at hout
  obtain ⟨ho₁, ho₂⟩ := hout
  subst ho₁
  subst ho₂
  refine ⟨?_, ?_, ?_⟩
  · rintro ⟨hc, hm⟩
    simp only [DocContent.text.injEq] at hc
    simp [hc, hm]
  · intro hc hid
    obtain ⟨hcc, -⟩ := contentId_injective hid
    exact hc (by simp [hcc])
  · intro hc hm hid
    exact hm (contentId_injective hid).2

theorem default_id_content_addressed_witness :
    runDocs defaultCleaner noOverrides [exDoc0, exDoc1] = [exOut0, exOut1] ∧
      exOut0.id ≠ exOut1.id :=
  ⟨by decide,
    (default_id_content_addressed defaultCleaner noOverrides rfl exDoc0 exDoc1
      "Text. " "Text. " rfl rfl exOut0 exOut1 (by decide)).2.2 rfl (by decide)⟩

/-- C4: for every text document, the output id is exactly the value the
configured id generator returns on (original document, freshly built cleaned
document); with `KEEP_ID` the output id is the input id. -/
theorem run_uses_id_generator (c : DocumentCleaner) (ov : Overrides) (d : Document) (s : String)
    (h : d.content = .text s) :
    (runDocs c ov [d]).map Document.id
        = [c.id_generator d (mkCleanedDocument (cleanText (effectiveCleaner c ov) s) d.meta)] ∧
    (c.id_generator = KEEP_ID → (runDocs c ov [d]).map Document.id = [d.id]) := by
  constructor
  · simp [runDocs, DocumentCleaner.run, processDoc, h, effectiveCleaner_id_generator]
  · intro hk
    simp [runDocs, DocumentCleaner.run, processDoc, h, effectiveCleaner_id_generator, hk,
      KEEP_ID]

theorem run_uses_id_generator_witness :
    (runDocs keepCleaner noOverrides [exDoc0]).map Document.id = ["id0"] ∧
      (runDocs customCleaner noOverrides [exDoc0]).map Document.id = ["id0-new"] :=
  ⟨(run_uses_id_generator keepCleaner noOverrides exDoc0 "Text. " rfl).2 rfl,
    (run_uses_id_generator customCleaner noOverrides exDoc0 "Text. " rfl).1⟩

/-- C5: `run` raises the invalid-input-kind error — whose message states that
a List of Documents is expected — exactly on non-sequence input: every single
bare Document is rejected before any processing, every proper list is
accepted, and the empty list yields the empty output with no diagnostics. -/
theorem run_input_type_check (c : DocumentCleaner) (ov : Overrides) :
    (∀ d : Document, (c.run ov (.single d)).1
        = .error (.invalidInputKind "DocumentCleaner expects a List of Documents as input.")) ∧
    (c.run ov (.listOf [])).1 = .ok { documents := [], warnings := [] } ∧
    (∀ ds : List Document, ∃ out, (c.run ov (.listOf ds)).1 = .ok out) := by
  refine ⟨fun d => rfl, rfl, fun ds => ⟨_, rfl⟩⟩

theorem run_input_type_check_witness :
    (defaultCleaner.run noOverrides (.single exDoc0)).1
        = .error (.invalidInputKind "DocumentCleaner expects a List of Documents as input.") ∧
      (defaultCleaner.run noOverrides (.listOf [])).1 = .ok { documents := [], warnings := [] } :=
  ⟨(run_input_type_check defaultCleaner noOverrides).1 exDoc0,
    (run_input_type_check defaultCleaner noOverrides).2.1⟩

/-- C6: a document whose content is missing or not text is passed through
unmodified (original id included) with a warning-level diagnostic naming its
id; no error is raised and — since the conclusion holds for every cleaner,
whatever its generator — the id generator is not consulted. -/
theorem run_passes_nontext_through (c : DocumentCleaner) (ov : Overrides) (d : Document)
    (h : d.content.isText = false) :
    (c.run ov (.listOf [d])).1
      = .ok { documents := [d],
              warnings := ["DocumentCleaner only cleans text documents but document.content " ++
                "for document ID " ++ d.id ++ " is not a string. Skipping this document."] } := by
  match hd : d.content with
  | .text s => rw [hd] at h; exact absurd h (by simp [DocContent.isText])
  | .missing =>
    simp [DocumentCleaner.run, processDoc, hd, nonTextWarning, String.append_assoc]
  | .nonText tag =>
    simp [DocumentCleaner.run, processDoc, hd, nonTextWarning, String.append_assoc]

theorem run_passes_nontext_through_witness :
    exDocNonText.content.isText = false ∧
      (defaultCleaner.run noOverrides (.listOf [exDocNonText])).1
        = .ok { documents := [exDocNonText],
                warnings := ["DocumentCleaner only cleans text documents but document.content " ++
                  "for document ID " ++ exDocNonText.id ++
                  " is not a string. Skipping this document."] } :=
  ⟨rfl, run_passes_nontext_through defaultCleaner noOverrides exDocNonText rfl⟩

/-- C7: the substring stage deletes each configured literal, in list order,
case-sensitively, everywhere it occurs: on the worked example the content
"This is a text with some words.🪲" with substrings ["This", "A", "words",
"🪲"] cleans to exactly " is a text with some ." (the "A" matches nothing). -/
theorem remove_substrings_worked_example :
    (runDocs { remove_substrings := some ["This", "A", "words", "🪲"] } noOverrides
        [{ id := "doc-7", content := .text "This is a text with some words.🪲", meta := [] }]).map
        Document.content
      = [.text " is a text with some ."] := by
  decide

/-- C8: every stage switch may be overridden per call — a run with overrides
behaves exactly like a run of the cleaner with the overridden configuration
and no overrides — and the component configuration after any call is
unchanged. -/
theorem run_overrides_per_call (c : DocumentCleaner) (ov : Overrides) (input : RunInput) :
    (c.run ov input).2 = c ∧
      (c.run ov input).1 = ((effectiveCleaner c ov).run noOverrides input).1 := by
  cases input with
  | single d => exact ⟨rfl, rfl⟩
  | listOf ds =>
    refine ⟨rfl, ?_⟩
    have he : effectiveCleaner (effectiveCleaner c ov) noOverrides = effectiveCleaner c ov := rfl
    simp [DocumentCleaner.run, he]


set_option maxRecDepth 200000 in
/-- C1: with empty-line and whitespace stages disabled and the
repeated-substring stage enabled, cleaning the worked three-page example
yields exactly the expected literal text: the unique page bodies plus the
page-number lines, with the repeated header/footer spans removed. -/
theorem repeated_substrings_worked_example :
    (runDocs c1Cleaner noOverrides
        [{ id := "doc-1", content := .text c1Text, meta := [] }]).map Document.content
      = [.text c1Expected] := by
  decide


/-- C9 counterexample: with a plain Pydantic model every bare instance
validates, yet `run` on one (instance, metadata) pair raises the ValueError,
because the source passes the whole tuple — never an instance of the model —
to `model_validate`; so "instances all validate → empty documents collection
with no error" fails on the program. -/
theorem writer_run_claim_refuted :
    (∀ x ∈ [((1 : Nat), ([] : List (String × String)))], ∃ v, instanceValidate x.1 = .ok v) ∧
      (tupleRejectingWriter.run [(1, [])] none).1
        = .error (.valueError "One of the instances passed did not pass validation.") := by
  constructor
  · intro x hx
    exact ⟨x.1, rfl⟩
  · rfl

/-- C9 (amended): the writer's `run` is non-functional — it never writes to
the document store, returns the empty documents collection whenever every
whole (instance, metadata) pair validates as `run` passes it to
`model_validate`, and raises a ValueError as soon as any passed pair fails
validation (for a plain Pydantic model the pairs always fail, so `run` raises
on every non-empty input even when all the instances themselves are
valid). -/
theorem writer_run_nonfunctional {α : Type} (w : PydanticDocumentWriter α)
    (instances : List (α × List (String × String))) (p : Option DuplicatePolicy) :
    (w.run instances p).2 = w.document_store ∧
    ((∀ x ∈ instances, ∃ v, w.model.model_validate x = .ok v) →
      (w.run instances p).1 = .ok []) ∧
    ((∃ x ∈ instances, ∃ e, w.model.model_validate x = .error e) →
      (w.run instances p).1
        = .error (.valueError "One of the instances passed did not pass validation.")) := by
  refine ⟨rfl, ?_, ?_⟩
  · intro hall
    show writerLoop w.model instances = .ok []
    induction instances with
    | nil => rfl
    | cons x rest ih =>
      obtain ⟨v, hv⟩ := hall x (by simp)
      rw [writerLoop, hv]
      exact ih (fun y hy => hall y (by simp [hy]))
  · intro hfail
    show writerLoop w.model instances
      = .error (.valueError "One of the instances passed did not pass validation.")
    induction instances with
    | nil =>
      obtain ⟨y, hy, -⟩ := hfail
      exact absurd hy (by simp)
    | cons x rest ih =>
      rw [writerLoop]
      match hv : w.model.model_validate x with
      | .error e => rfl
      | .ok v =>
        obtain ⟨y, hy, e, he⟩ := hfail
        rcases List.mem_cons.mp hy with hy0 | hy1
        · subst hy0
          rw [hv] at he
          exact absurd he (by simp)
        · exact ih ⟨y, hy1, e, he⟩

theorem writer_run_nonfunctional_witness :
    (exWriter.run [(1, []), (2, [])] none).1 = .ok [] ∧
      (exWriter.run [(1, []), (2, [])] none).2 = exWriter.document_store ∧
      (exWriter.run [(0, [])] none).1
        = .error (.valueError "One of the instances passed did not pass validation.") :=
  ⟨(writer_run_nonfunctional exWriter [(1, []), (2, [])] none).2.1
      (by intro x hx; fin_cases hx <;> exact ⟨_, rfl⟩),
    (writer_run_nonfunctional exWriter [(1, []), (2, [])] none).1,
    (writer_run_nonfunctional exWriter [(0, [])] none).2.2
      ⟨(0, []), by simp, "zero", rfl⟩⟩

theorem dlookup_dset_ne (l : List (String × PyTop)) (k kx : String) (v : PyTop)
    (h : k ≠ kx) : dlookup k (dset l kx v) = dlookup k l := by
  induction l with
  | nil => rfl
  | cons kv rest ih =>
    obtain ⟨k₀, v₀⟩ := kv
    rw [dset]
    by_cases hkx : k₀ = kx
    · subst hkx
      have hne : ¬ k₀ = k := fun he => h (he ▸ rfl)
      rw [if_pos rfl, dlookup, dlookup, if_neg hne, if_neg hne]
      exact ih
    · rw [if_neg hkx, dlookup, dlookup]
      by_cases hk : k₀ = k
      · rw [if_pos hk, if_pos hk]
      · rw [if_neg hk, if_neg hk]
        exact ih

theorem dlookup_dset_self (l : List (String × PyTop)) (k : String) (v : PyTop)
    (h : (dlookup k l).isSome) : dlookup k (dset l k v) = some v := by
  induction l with
  | nil => simp [dlookup] at h
  | cons kv rest ih =>
    obtain ⟨k₀, v₀⟩ := kv
    rw [dset]
    by_cases hk : k₀ = k
    · subst hk
      rw [if_pos rfl, dlookup, if_pos rfl]
    · rw [if_neg hk, dlookup, if_neg hk]
      rw [dlookup, if_neg hk] at h
      exact ih h

theorem dlookup_dremove_ne (l : List (String × PyTop)) (k kx : String)
    (h : k ≠ kx) : dlookup k (dremove l kx) = dlookup k l := by
  induction l with
  | nil => rfl
  | cons kv rest ih =>
    obtain ⟨k₀, v₀⟩ := kv
    rw [dremove]
    by_cases hkx : k₀ = kx
    · subst hkx
      have hne : ¬ k₀ = k := fun he => h (he ▸ rfl)
      rw [if_pos rfl, dlookup, if_neg hne]
      exact ih
    · rw [if_neg hkx, dlookup, dlookup]
      by_cases hk : k₀ = k
      · rw [if_pos hk, if_pos hk]
      · rw [if_neg hk, if_neg hk]
        exact ih

theorem dlookup_fieldEntries (l : List (String × PyTop)) (k : String)
    (hk : chatFieldNames.contains k = true) :
    dlookup k (fieldEntries l) = dlookup k l := by
  induction l with
  | nil => rfl
  | cons kv rest ih =>
    obtain ⟨k₀, v₀⟩ := kv
    rw [fieldEntries]
    by_cases hk0 : k₀ = k
    · subst hk0
      rw [if_pos hk, dlookup, if_pos rfl, dlookup, if_pos rfl]
    · by_cases hf : chatFieldNames.contains k₀ = true
      · rw [if_pos hf, dlookup, if_neg hk0, dlookup, if_neg hk0]
        exact ih
      · rw [if_neg hf, dlookup, if_neg hk0]
        exact ih

theorem nonFieldEntries_dset (l : List (String × PyTop)) (k : String) (v : PyTop)
    (hk : chatFieldNames.contains k = true) :
    nonFieldEntries (dset l k v) = nonFieldEntries l := by
  induction l with
  | nil => rfl
  | cons kv rest ih =>
    obtain ⟨k₀, v₀⟩ := kv
    rw [dset]
    by_cases hk0 : k₀ = k
    · subst hk0
      rw [if_pos rfl, nonFieldEntries, nonFieldEntries, if_pos hk, if_pos hk]
      exact ih
    · rw [if_neg hk0, nonFieldEntries, nonFieldEntries]
      by_cases hf : chatFieldNames.contains k₀ = true
      · rw [if_pos hf, if_pos hf]
        exact ih
      · rw [if_neg hf, if_neg hf, ih]

theorem nonFieldEntries_dremove (l : List (String × PyTop)) (k : String)
    (hk : chatFieldNames.contains k = true) :
    nonFieldEntries (dremove l k) = nonFieldEntries l := by
  induction l with
  | nil => rfl
  | cons kv rest ih =>
    obtain ⟨k₀, v₀⟩ := kv
    rw [dremove]
    by_cases hk0 : k₀ = k
    · subst hk0
      rw [if_pos rfl, nonFieldEntries, if_pos hk]
      exact ih
    · rw [if_neg hk0, nonFieldEntries, nonFieldEntries]
      by_cases hf : chatFieldNames.contains k₀ = true
      · rw [if_pos hf, if_pos hf]
        exact ih
      · rw [if_neg hf, if_neg hf, ih]

/-- C10 counterexample: on the dictionary whose `role` value is not a valid
`ChatRole`, `from_dict` raises a ValueError although the dictionary has
neither a truthy `meta` entry nor a non-field key, refuting the claimed
"exactly when". -/
theorem from_dict_valueError_iff_refuted :
    ¬ (raisesValueError c10Bad = true ↔ hasBothMetaKinds c10Bad = true) := by
  decide

/-- C10 (amended): provided the dictionary carries a `role` entry naming a
valid `ChatRole`, entries for `content` and `name`, and a dictionary (or
absent) `meta` entry, `from_dict` raises a ValueError exactly when the `meta`
entry is non-empty and at least one key is not a `ChatMessage` field name;
otherwise it succeeds, converting `role` into the `ChatRole` and collecting
every non-field key into the message's metadata, merged with the `meta`
entry. -/
theorem from_dict_meta_exclusivity (d : List (String × PyTop)) (r : ChatRole)
    (rv cv nv : PyTop) (me : List (String × PyPrim))
    (hrv : dlookup "role" d = some rv) (hr : ChatRole.ofValue rv = some r)
    (hc : dlookup "content" d = some cv) (hn : dlookup "name" d = some nv)
    (hm : (dlookup "meta" d).getD (.dict []) = .dict me) :
    (me ≠ [] ∧ nonFieldEntries d ≠ [] →
        ChatMessage.from_dict d = .error (.valueError bothMetaMsg)) ∧
    (¬ (me ≠ [] ∧ nonFieldEntries d ≠ []) →
        ChatMessage.from_dict d
          = .ok { content := cv, role := .prim (.role r), name := nv,
                  meta := dmerge (liftDict me) (nonFieldEntries d) }) := by
  have hflat : nonFieldEntries (dremove (dset d "role" (.prim (.role r))) "meta")
      = nonFieldEntries d := by
    rw [nonFieldEntries_dremove _ _ (by decide), nonFieldEntries_dset _ _ _ (by decide)]
  have hmeta : (dlookup "meta" (dset d "role" (.prim (.role r)))).getD (.dict [])
      = .dict me := by
    rw [dlookup_dset_ne _ _ _ _ (by decide)]
    exact hm
  have hrole3 : dlookup "role" (fieldEntries (dremove (dset d "role" (.prim (.role r))) "meta"))
      = some (.prim (.role r)) := by
    rw [dlookup_fieldEntries _ _ (by decide), dlookup_dremove_ne _ _ _ (by decide),
      dlookup_dset_self]
    rw [hrv]
    rfl
  have hc3 : dlookup "content" (fieldEntries (dremove (dset d "role" (.prim (.role r))) "meta"))
      = some cv := by
    rw [dlookup_fieldEntries _ _ (by decide), dlookup_dremove_ne _ _ _ (by decide),
      dlookup_dset_ne _ _ _ _ (by decide)]
    exact hc
  have hn3 : dlookup "name" (fieldEntries (dremove (dset d "role" (.prim (.role r))) "meta"))
      = some nv := by
    rw [dlookup_fieldEntries _ _ (by decide), dlookup_dremove_ne _ _ _ (by decide),
      dlookup_dset_ne _ _ _ _ (by decide)]
    exact hn
  simp only [ChatMessage.from_dict, hrv, hr, hmeta, hflat, hrole3, hc3, hn3]
  constructor
  · rintro ⟨hme, hfl⟩
    rw [if_pos]
    refine ⟨?_, hfl⟩
    show PyTop.isTruthy (.dict me) = true
    simpa [PyTop.isTruthy] using hme
  · intro hcond
    rw [if_neg]
    intro hcontra
    apply hcond
    refine ⟨?_, hcontra.2⟩
    have h1 := hcontra.1
    simpa [PyTop.isTruthy] using h1

theorem from_dict_meta_exclusivity_witness :
    ChatMessage.from_dict c10Good
      = .ok { content := .prim (.str "hi"), role := .prim (.role .user),
              name := .prim .pyNone, meta := [("extra", .prim (.str "x"))] } :=
  (from_dict_meta_exclusivity c10Good .user (.prim (.str "user")) (.prim (.str "hi"))
      (.prim .pyNone) [] rfl rfl rfl rfl rfl).2 (by simp)

end Haystack
